import Mathlib

/-!
Verification of the regez binding (src/lib/regez/regez.h) against its
specification.  The header is a thin shim over a POSIX-style
extended-regular-expression engine: `sizeof_regex_t` and `alignof_regex_t`
report the layout of the opaque handle type, `isMatch` forwards to the
engine's `regexec` with a zero-length capture array, and the (commented)
`init` allocates a handle, compiles with `REG_EXTENDED | REG_NOSUB`, and
frees the storage again on compile failure.

The engine itself (`regcomp` / `regexec`) is not part of the repository, so
it is modelled here from the specification's engine design (sections 4.1 to
4.3 of the spec): a pattern parser producing an AST of
literal/concat/alternate/closure/group/anchor nodes, and a matcher that
scans the input from every start position, evaluating anchors against the
logical start and end of the scanned string.  The shim functions themselves
are translated directly from the C source.
-/

/-- Pattern AST, following the spec's data model: tagged variant over
Literal(char-set), Concat, Alternate, Closure(child, min, max),
Group(child), Anchor(kind).  A character set is represented as its
characteristic predicate. -/
inductive AST where
  | lit (p : Char → Bool)
  | concat (l r : AST)
  | alternate (l r : AST)
  | closure (child : AST) (min : Nat) (max : Option Nat)
  | group (child : AST)
  | anchorStart
  | anchorEnd

instance : Inhabited AST := ⟨AST.anchorStart⟩

/-- Size of an AST, used only to choose a sufficient fuel bound for the
matcher. -/
def astSize : AST → Nat
  | .lit _ => 1
  | .concat l r => astSize l + astSize r + 1
  | .alternate l r => astSize l + astSize r + 1
  | .closure c _ _ => astSize c + 1
  | .group c => astSize c + 1
  | .anchorStart => 1
  | .anchorEnd => 1

/-- Decrement an optional repetition upper bound. -/
def decMax : Option Nat → Option Nat
  | none => none
  | some k => some (k - 1)

/-- Modelled from the spec: the matcher semantics of the engine wrapped by
the binding.  `runM fuel a s pos` returns the end positions (in priority
order, greedy first) at which the subpattern `a` can match inside the full
input `s` starting at absolute position `pos`.  Anchors are evaluated
against the logical start and end of the scanned string (spec section 4.3);
groups carry no extra matching semantics in match-only mode.  Fuel bounds
the recursion through closures. -/
def runM : Nat → AST → List Char → Nat → List Nat
  | 0, _, _, _ => []
  | _ + 1, .lit p, s, pos =>
      match s.get? pos with
      | some c => if p c then [pos + 1] else []
      | none => []
  | fuel + 1, .concat l r, s, pos =>
      (runM fuel l s pos).flatMap (fun q => runM fuel r s q)
  | fuel + 1, .alternate l r, s, pos =>
      runM fuel l s pos ++ runM fuel r s pos
  | fuel + 1, .group c, s, pos => runM fuel c s pos
  | _ + 1, .anchorStart, _, pos => if pos = 0 then [pos] else []
  | _ + 1, .anchorEnd, s, pos => if pos = s.length then [pos] else []
  | fuel + 1, .closure c min max, s, pos =>
      match min, max with
      | m + 1, _ =>
          (runM fuel c s pos).flatMap
            (fun q => runM fuel (.closure c m (decMax max)) s q)
      | 0, some 0 => [pos]
      | 0, some (k + 1) =>
          ((runM fuel c s pos).flatMap
            (fun q => runM fuel (.closure c 0 (some k)) s q)) ++ [pos]
      | 0, none =>
          ((runM fuel c s pos).flatMap
            (fun q => runM fuel (.closure c 0 none) s q)) ++ [pos]

/-- Fuel bound for the matcher: generous in input length and pattern size. -/
def matchFuel (a : AST) (s : List Char) : Nat :=
  (s.length + 2) * (astSize a + 2)

/-- Run the matcher on subpattern `a` from position `pos` of input `s`. -/
def runAST (a : AST) (s : List Char) (pos : Nat) : List Nat :=
  runM (matchFuel a s) a s pos

/-- Modelled from the spec: the engine's unanchored search.  It tries every
start position from left to right (leftmost preference) and reports the
first successful span, taking the highest-priority end position. -/
def searchFirst (a : AST) (s : List Char) : Option (Nat × Nat) :=
  (List.range (s.length + 1)).findSome?
    (fun i => ((runAST a s i).head?).map (fun j => (i, j)))

/-- Numeric value of a digit string (the digits of a repetition bound). -/
def digitsToNat (ds : List Char) : Nat :=
  ds.foldl (fun acc c => acc * 10 + (c.toNat - 48)) 0

/-- Modelled from the spec: parse a repetition bound after an opening brace,
of the forms m-close, m-comma-close, or m-comma-n-close.  Invalid bounds
with min greater than max are a syntax error (spec section 4.1), reported
as failure. -/
def parseBound (cs : List Char) : Option ((Nat × Option Nat) × List Char) :=
  let ds := cs.takeWhile (fun c => c.isDigit)
  let rest := cs.drop ds.length
  if ds.isEmpty then none else
  let m := digitsToNat ds
  match rest with
  | '}' :: r => some ((m, some m), r)
  | ',' :: '}' :: r => some ((m, none), r)
  | ',' :: r2 =>
      let ds2 := r2.takeWhile (fun c => c.isDigit)
      let r3 := r2.drop ds2.length
      if ds2.isEmpty then none else
      let n := digitsToNat ds2
      match r3 with
      | '}' :: r4 => if m ≤ n then some ((m, some n), r4) else none
      | _ => none
  | _ => none

/-- Modelled from the spec: parse the items of a bracket character class
(single characters and ranges) up to the closing bracket; a missing closing
bracket is a syntax error. -/
def parseClassItems : Nat → List Char → Option (List (Char × Char) × List Char)
  | 0, _ => none
  | _ + 1, [] => none
  | _ + 1, ']' :: rest => some ([], rest)
  | fuel + 1, c :: rest =>
      match rest with
      | '-' :: d :: rest2 =>
          if d = ']' then
            (parseClassItems fuel (']' :: rest2)).map
              (fun pr => ((c, c) :: ('-', '-') :: pr.1, pr.2))
          else
            (parseClassItems fuel rest2).map (fun pr => ((c, d) :: pr.1, pr.2))
      | _ => (parseClassItems fuel rest).map (fun pr => ((c, c) :: pr.1, pr.2))

/-- Membership of a character in a bracket class given by its ranges and
negation flag. -/
def inClass (items : List (Char × Char)) (neg : Bool) (c : Char) : Bool :=
  xor (items.any (fun it => decide (it.1 ≤ c ∧ c ≤ it.2))) neg

/-- Modelled from the spec: parse a bracket character class after the
opening bracket, with optional leading caret for negation and a leading
closing bracket taken literally. -/
def parseClass (fuel : Nat) (cs : List Char) : Option (AST × List Char) :=
  let st1 : Bool × List Char :=
    match cs with
    | '^' :: rest => (true, rest)
    | _ => (false, cs)
  let st2 : List (Char × Char) × List Char :=
    match st1.2 with
    | ']' :: rest => ([(']', ']')], rest)
    | _ => ([], st1.2)
  (parseClassItems fuel st2.2).map
    (fun pr => (AST.lit (inClass (st2.1 ++ pr.1) st1.1), pr.2))

/-- Characters at which a concatenation stops: end of input, an alternation
bar, or a closing parenthesis belonging to an enclosing group. -/
def stopCat (cs : List Char) : Bool :=
  match cs with
  | [] => true
  | '|' :: _ => true
  | ')' :: _ => true
  | _ => false

mutual

/-- Modelled from the spec: parse an alternation (lowest precedence). -/
def parseAlt : Nat → List Char → Option (AST × List Char)
  | 0, _ => none
  | fuel + 1, cs =>
      match parseCat fuel cs with
      | none => none
      | some (a, rest) =>
          match rest with
          | '|' :: rest2 =>
              match parseAlt fuel rest2 with
              | none => none
              | some (b, rest3) => some (.alternate a b, rest3)
          | _ => some (a, rest)

/-- Modelled from the spec: parse a concatenation (middle precedence). -/
def parseCat : Nat → List Char → Option (AST × List Char)
  | 0, _ => none
  | fuel + 1, cs =>
      match parseRep fuel cs with
      | none => none
      | some (a, rest) =>
          if stopCat rest then some (a, rest)
          else
            match parseCat fuel rest with
            | none => none
            | some (b, rest2) => some (.concat a b, rest2)

/-- Modelled from the spec: parse an atom with its postfix closures
(highest precedence). -/
def parseRep : Nat → List Char → Option (AST × List Char)
  | 0, _ => none
  | fuel + 1, cs =>
      match parseAtom fuel cs with
      | none => none
      | some (a, rest) => parsePostfix fuel a rest

/-- Modelled from the spec: apply the postfix closure operators star, plus,
question mark and brace bounds to a parsed atom. -/
def parsePostfix : Nat → AST → List Char → Option (AST × List Char)
  | 0, _, _ => none
  | fuel + 1, a, cs =>
      match cs with
      | '*' :: rest => parsePostfix fuel (.closure a 0 none) rest
      | '+' :: rest => parsePostfix fuel (.closure a 1 none) rest
      | '?' :: rest => parsePostfix fuel (.closure a 0 (some 1)) rest
      | '{' :: rest =>
          match parseBound rest with
          | none => none
          | some (mn, rest2) => parsePostfix fuel (.closure a mn.1 mn.2) rest2
      | _ => some (a, cs)

/-- Modelled from the spec: parse a single atom - a group, a bracket class,
an anchor, a dot, an escaped literal or a plain literal.  A dangling
operator or unbalanced parenthesis is a syntax error. -/
def parseAtom : Nat → List Char → Option (AST × List Char)
  | 0, _ => none
  | fuel + 1, cs =>
      match cs with
      | [] => none
      | '(' :: rest =>
          match parseAlt fuel rest with
          | none => none
          | some (a, rest2) =>
              match rest2 with
              | ')' :: rest3 => some (.group a, rest3)
              | _ => none
      | '[' :: rest => parseClass fuel rest
      | '^' :: rest => some (.anchorStart, rest)
      | '$' :: rest => some (.anchorEnd, rest)
      | '.' :: rest => some (.lit (fun _ => true), rest)
      | '\\' :: c :: rest => some (.lit (fun d => d == c), rest)
      | ['\\'] => none
      | c :: rest =>
          if c == '|' || c == ')' || c == '*' || c == '+' || c == '?' then none
          else some (.lit (fun d => d == c), rest)

end

/-- Modelled from the spec: the pattern parser contract of section 4.1 -
turn a textual extended-regex pattern into an AST or fail (no partial AST).
The whole input must be consumed; an unmatched closing parenthesis is a
syntax error. -/
def parse (pattern : String) : Option AST :=
  match parseAlt (8 * (pattern.length + 2)) pattern.toList with
  | some (a, []) => some a
  | _ => none

/-- Compiled pattern handle, the opaque regex_t of the binding: the compiled
program together with the no-capture flag recorded at compile time.
Modelled from the spec's Compiled Pattern Handle (immutable after
construction). -/
structure regex_t where
  prog : AST
  nosub : Bool

instance : Inhabited regex_t := ⟨⟨AST.anchorStart, true⟩⟩

/-- POSIX return code of regexec for an input that does not match. -/
def REG_NOMATCH : Nat := 1

/-- POSIX return code of regexec for an out-of-memory matcher error. -/
def REG_ESPACE : Nat := 12

/-- POSIX cflag selecting extended syntax, as used by init. -/
def REG_EXTENDED : Nat := 1

/-- POSIX cflag requesting match-only mode with no captures, as used by
init. -/
def REG_NOSUB : Nat := 8

/-- Width modulus of the C type uint16_t, the return type of
alignof_regex_t. -/
def UINT16_MOD : Nat := 65536

/-- Modelled from the spec: regexec, the engine entry point wrapped by
isMatch.  It searches the input for a match of the compiled pattern and
returns the POSIX return code (0 on success, REG_NOMATCH otherwise)
together with the capture spans written into the caller's pmatch array:
at most nmatch spans, and none at all for a handle compiled with
REG_NOSUB (match-only mode, spec section 4.3). -/
def regexec (re : regex_t) (input : String) (nmatch : Nat) :
    Nat × List (Nat × Nat) :=
  match searchFirst re.prog input.toList with
  | some ij => (0, if re.nosub then [] else List.take nmatch [ij])
  | none => (REG_NOMATCH, [])

/-- Embeds the return expression of isMatch in src/lib/regez/regez.h: the
comparison of the regexec return code against 0. -/
def isMatchCode (code : Nat) : Bool := code == 0

/-- Embeds isMatch from src/lib/regez/regez.h: declare a zero-length pmatch
array, call regexec with nmatch = 0 and eflags = 0, and return whether the
return code is 0. -/
def isMatch (re : regex_t) (input : String) : Bool :=
  isMatchCode (regexec re input 0).1

/-- Platform layout facts about the opaque regex_t type: the values of
sizeof(regex_t) and alignof(regex_t) on the build platform. -/
structure Platform where
  sizeofRegexT : Nat
  alignofRegexT : Nat

/-- Embeds sizeof_regex_t from src/lib/regez/regez.h: return
sizeof(regex_t) as a size_t (sizeof always fits in size_t). -/
def sizeof_regex_t (p : Platform) : Nat := p.sizeofRegexT

/-- Embeds alignof_regex_t from src/lib/regez/regez.h: return
alignof(regex_t) converted to the declared return type uint16_t, hence
reduced modulo 2 to the 16. -/
def alignof_regex_t (p : Platform) : Nat := p.alignofRegexT % UINT16_MOD

/-- Modelled from the spec: regcomp, the engine's compiler entry point -
parse the pattern and build a handle, recording match-only mode when
REG_NOSUB is among the cflags; fail with no partial result on a syntax
error. -/
def regcomp (pattern : String) (cflags : Nat) : Option regex_t :=
  (parse pattern).map
    (fun a => { prog := a, nosub := cflags &&& REG_NOSUB ≠ 0 : regex_t })

/-- Allocation state of the process heap, tracking the number of live
allocations so that leak-freedom of init can be stated. -/
structure Heap where
  allocs : Nat

/-- Embeds the init function of src/lib/regez/regez.h (the commented lines
19 to 27): malloc storage for a regex_t, compile the pattern with
REG_EXTENDED and REG_NOSUB, and on compile failure free the storage and
return NULL.  The heap is threaded explicitly to record allocation
effects. -/
def init (h : Heap) (pattern : String) : Option regex_t × Heap :=
  let h1 : Heap := { allocs := h.allocs + 1 }
  match regcomp pattern (REG_EXTENDED ||| REG_NOSUB) with
  | none => (none, { allocs := h1.allocs - 1 })
  | some re => (some re, h1)

/-- Compile a pattern starting from an empty heap and return only the
handle, as a caller of init would. -/
def compile (pattern : String) : Option regex_t :=
  (init { allocs := 0 } pattern).1

/-- Modelled from the spec: regexec with the handle state threaded
explicitly.  The handle is read-only during a match (spec: each match is
independent and side-effect-free on the handle; the handle is immutable
after construction), so the call returns the handle unchanged. -/
def regexecSt (re : regex_t) (input : String) (nmatch : Nat) :
    (Nat × List (Nat × Nat)) × regex_t :=
  (regexec re input nmatch, re)

/-- Embeds isMatch with the handle state threaded explicitly, forwarding to
the state-threaded regexec. -/
def isMatchSt (re : regex_t) (input : String) : Bool × regex_t :=
  let r := regexecSt re input 0
  (isMatchCode r.1.1, r.2)

/-- Match one handle against a whole list of inputs in sequence, threading
the handle state through every call. -/
def matchMany (re : regex_t) (inputs : List String) : List Bool × regex_t :=
  match inputs with
  | [] => ([], re)
  | s :: rest =>
      let r := isMatchSt re s
      let rr := matchMany r.2 rest
      (r.1 :: rr.1, rr.2)

/-- Handle compiled from the pattern caret-abc-dollar, used as a concrete
witness handle. -/
def hABC : regex_t := (compile "^abc$").getD default

/-- Handle compiled by regcomp from the single-letter pattern a with the
cflags used by init, used as a concrete witness handle. -/
def hA : regex_t := (regcomp "a" (REG_EXTENDED ||| REG_NOSUB)).getD default

/-- Claim C1: for every compiled pattern handle and every input string,
isMatch returns true exactly when regexec reports success with return code
0; a non-match is delivered as the ordinary boolean false of a total
function, never as an error or exception. -/
theorem isMatch_iff_regexec_success (re : regex_t) (s : String) :
    isMatch re s = true ↔ (regexec re s 0).1 = 0 := by
  simp [isMatch, isMatchCode]

/-- Claim C2: matching is deterministic - isMatch is a pure function of the
handle and the input, and any two handles obtained by compiling the same
pattern text agree on acceptance of every input. -/
theorem isMatch_deterministic_recompile (p : String) (re1 re2 : regex_t)
    (h1 : compile p = some re1) (h2 : compile p = some re2) (s : String) :
    isMatch re1 s = isMatch re2 s := by
  have h := Option.some.inj (h1.symm.trans h2)
  rw [h]

/-- Witness for claim C2 at the concrete pattern caret-abc-dollar and the
concrete input abc. -/
theorem isMatch_deterministic_recompile_witness :
    compile "^abc$" = some hABC ∧ isMatch hABC "abc" = isMatch hABC "abc" :=
  ⟨rfl, isMatch_deterministic_recompile "^abc$" hABC hABC rfl rfl "abc"⟩

/-- Claim C3: isMatch is a match-only wrapper - it invokes regexec with
nmatch equal to 0, so no capture span is ever written back, and it returns
only the acceptance boolean computed from the return code. -/
theorem isMatch_discards_captures (re : regex_t) (s : String) :
    isMatch re s = isMatchCode (regexec re s 0).1 ∧ (regexec re s 0).2 = [] := by
  refine ⟨rfl, ?_⟩
  cases h : searchFirst re.prog s.data <;> simp [regexec, String.toList, h]

/-- Claim C4: a match call is side-effect-free on the handle - threading
the handle state through any sequence of isMatch calls returns the handle
unchanged, and every call in the sequence returns exactly what a fresh
match on the original handle returns. -/
theorem isMatch_frame (re : regex_t) (ss : List String) :
    (matchMany re ss).2 = re ∧
      (matchMany re ss).1 = ss.map (fun s => isMatch re s) := by
  induction ss with
  | nil => exact ⟨rfl, rfl⟩
  | cons s rest ih =>
      exact ⟨ih.1, by simp [matchMany, isMatchSt, regexecSt, isMatch, ih.2]⟩

/-- Claim C5: the introspection entry points are pure layout reporters -
sizeof_regex_t returns exactly sizeof(regex_t), and alignof_regex_t
returns exactly alignof(regex_t) whenever that value fits the declared
uint16_t return type (as it does on the targeted platforms); both depend
on nothing but the platform layout, so every call returns the same
constant. -/
theorem layout_reporters_pure (p : Platform) :
    sizeof_regex_t p = p.sizeofRegexT ∧
      (p.alignofRegexT < UINT16_MOD → alignof_regex_t p = p.alignofRegexT) :=
  ⟨rfl, fun h => Nat.mod_eq_of_lt h⟩

/-- Witness for claim C5 at the concrete platform layout with size 64 and
alignment 8. -/
theorem layout_reporters_pure_witness :
    sizeof_regex_t ⟨64, 8⟩ = 64 ∧ alignof_regex_t ⟨64, 8⟩ = 8 :=
  ⟨(layout_reporters_pure ⟨64, 8⟩).1, (layout_reporters_pure ⟨64, 8⟩).2 (by decide)⟩

/-- Claim C6: anchors bind to the logical start and end of the scanned
string - the handle compiled from the pattern caret-abc-dollar accepts the
input abc and rejects the inputs xabcx and abcx. -/
theorem anchors_logical_start_end :
    (compile "^abc$").map
        (fun h => (isMatch h "abc", isMatch h "xabcx", isMatch h "abcx")) =
      some (true, false, false) := by
  rfl

/-- Claim C7: init is atomic - when regcomp fails it returns no handle and
the heap is exactly as before (the malloc is undone by the free), and when
regcomp succeeds it returns precisely the fully-initialized handle regcomp
produced, with exactly one new live allocation. -/
theorem init_atomic (h : Heap) (p : String) :
    (regcomp p (REG_EXTENDED ||| REG_NOSUB) = none → init h p = (none, h)) ∧
      ∀ re, regcomp p (REG_EXTENDED ||| REG_NOSUB) = some re →
        init h p = (some re, { allocs := h.allocs + 1 }) := by
  constructor
  · intro hc
    simp [init, hc]
  · intro re hc
    simp [init, hc]

/-- Witness for claim C7: the unbalanced pattern open-paren fails and
leaves the heap empty; the pattern a succeeds with one live allocation. -/
theorem init_atomic_witness :
    init ⟨0⟩ "(" = (none, ⟨0⟩) ∧ init ⟨0⟩ "a" = (some hA, ⟨1⟩) :=
  ⟨(init_atomic ⟨0⟩ "(").1 rfl, (init_atomic ⟨0⟩ "a").2 hA rfl⟩

/-- Claim C8: alignof_regex_t narrows the platform alignment to its
declared uint16_t return type - it returns alignof(regex_t) modulo 2 to
the 16, which equals the true alignment exactly when that alignment is
below 65536 and silently truncates otherwise. -/
theorem alignof_truncates_uint16 (p : Platform) :
    alignof_regex_t p = p.alignofRegexT % UINT16_MOD ∧
      (alignof_regex_t p = p.alignofRegexT ↔ p.alignofRegexT < UINT16_MOD) := by
  refine ⟨rfl, ?_, fun h => Nat.mod_eq_of_lt h⟩
  intro h
  have hlt : p.alignofRegexT % UINT16_MOD < UINT16_MOD :=
    Nat.mod_lt _ (by decide)
  calc p.alignofRegexT = alignof_regex_t p := h.symm
    _ < UINT16_MOD := hlt

/-- Claim C9: isMatch collapses every nonzero regexec return code to
false - a genuine matcher error such as REG_ESPACE is indistinguishable in
the boolean result from an ordinary REG_NOMATCH. -/
theorem isMatch_collapses_errors :
    (∀ (re : regex_t) (s : String),
        isMatch re s = isMatchCode (regexec re s 0).1) ∧
      ∀ c : Nat, c ≠ 0 → isMatchCode c = false := by
  refine ⟨fun re s => rfl, fun c hc => ?_⟩
  simpa [isMatchCode] using hc

/-- Witness for claim C9: the out-of-memory code REG_ESPACE and the
no-match code REG_NOMATCH both map to false. -/
theorem isMatch_collapses_errors_witness :
    isMatchCode REG_ESPACE = false ∧ isMatchCode REG_NOMATCH = false :=
  ⟨isMatch_collapses_errors.2 REG_ESPACE (by decide),
   isMatch_collapses_errors.2 REG_NOMATCH (by decide)⟩

/-- Claim C10: with nmatch equal to 0, regexec writes no capture span at
all - the capture output of the call made by isMatch is empty for every
handle and every input. -/
theorem regexec_zero_nmatch_writes_nothing (re : regex_t) (s : String) :
    (regexec re s 0).2 = [] := by
  cases h : searchFirst re.prog s.data <;> simp [regexec, String.toList, h]
